import Mathlib

/-!
# ngpool stratum server: embedding of `cmd/ngstratum/stratum.go`

The Go code is embedded shallowly.  Every goroutine body becomes a function
(or a step function driven by the inputs the goroutine receives), Go maps
become association lists, run-time panics become explicit results, and the
libraries the file imports (the sha256d hasher, the base64 decoder, the RPC
client, the SQL driver) are parameters of the functions that call them.
-/

namespace NgPool

/-! ## Common data -/

/-- A Go byte slice: the list of its byte values. -/
abbrev Bytes := List Nat

/-- The run-time panics the embedded code can raise. -/
inductive Fault where
  /-- A failed single-value type assertion such as `x.(string)`. -/
  | typeAssertion
  /-- A slice expression whose bounds are out of range. -/
  | sliceBounds
  /-- The `close` of a channel that is already closed. -/
  | closeOfClosedChannel
  /-- A method call through a nil interface or pointer. -/
  | nilDereference
  deriving DecidableEq, Repr

/-- How a piece of sequential code ends: it runs to completion, panics
(which ends the process, nothing recovers), or blocks forever. -/
inductive Outcome (σ : Type) where
  | ok (s : σ)
  | panic (f : Fault)
  | blocked (s : σ)
  deriving DecidableEq, Repr

/-- A Go map as an association list holding at most one pair per key. -/
abbrev GoMap (κ ν : Type) := List (κ × ν)

namespace GoMap

variable {κ ν : Type} [DecidableEq κ]

/-- The lookup `m[key]` with the comma-ok flag folded into the option. -/
def get : GoMap κ ν → κ → Option ν
  | [], _ => none
  | (k, v) :: rest, key => if k = key then some v else get rest key

/-- The assignment `m[key] = val`: replaces the entry of `key`, or adds one. -/
def set : GoMap κ ν → κ → ν → GoMap κ ν
  | [], key, val => [(key, val)]
  | (k, v) :: rest, key, val =>
    if k = key then (k, val) :: rest else (k, v) :: set rest key val

/-- The keys of the map. -/
def keys (m : GoMap κ ν) : List κ := m.map Prod.fst

end GoMap

/-- The struct `TemplateKey`. Go compares two values with `==` field by field. -/
structure TemplateKey where
  Algo : String
  Currency : String
  TemplateType : String
  deriving DecidableEq, Repr

/-- The struct `Template`. -/
structure Template where
  key : TemplateKey
  data : Bytes
  deriving DecidableEq, Repr

/-- The length `len(s)` of a Go string, in bytes. -/
def goLen (s : String) : Nat := s.utf8ByteSize

/-- The bounds check of the slice expression `s[:hi]`. -/
def checkSliceTo (s : String) (hi : Nat) : Except Fault Unit :=
  if hi ≤ goLen s then .ok () else .error .sliceBounds

/-- The bounds check of the slice expression `s[lo:]`. -/
def checkSliceFrom (s : String) (lo : Nat) : Except Fault Unit :=
  if lo ≤ goLen s then .ok () else .error .sliceBounds

/-! ## Service registry events and the watcher table -/

/-- A value of the dynamic label bag `map[string]interface{}`. -/
inductive LabelValue where
  | str (s : String)
  | num (n : Int)
  | bool (b : Bool)
  deriving DecidableEq, Repr

/-- The single-value type assertion `v.(string)` on a map lookup: it panics on
a missing key (nil interface) and on a value of another dynamic type. -/
def assertString : Option LabelValue → Except Fault String
  | some (.str s) => .ok s
  | _ => .error .typeAssertion

/-- The part of `service.ServiceStatus` that the server reads. -/
structure ServiceStatus where
  Labels : GoMap String LabelValue
  deriving DecidableEq, Repr

/-- The struct `service.ServiceStatusUpdate`. -/
structure ServiceStatusUpdate where
  Action : String
  ServiceID : String
  Status : ServiceStatus
  deriving DecidableEq, Repr

/-- The state of a Go channel variable used only for `make` and `close`. -/
inductive Chan where
  | nil
  | opened
  | closed
  deriving DecidableEq, Repr

/-- A broadcaster made by `broadcast.NewBroadcaster(buflen)`. -/
structure Broadcaster where
  buflen : Nat
  deriving DecidableEq, Repr

/-- The call `broadcast.NewBroadcaster(buflen)`. -/
def NewBroadcaster (buflen : Nat) : Broadcaster := ⟨buflen⟩

/-- The struct `CoinserverWatcher`. The field `newTemplate` is the server's one
template channel, and the counter of `wg` is changed only by the goroutines, so
neither is kept in the record. -/
structure CoinserverWatcher where
  id : String
  tmplKey : TemplateKey
  endpoint : String
  status : String
  blockCast : Broadcaster
  shutdown : Chan
  deriving DecidableEq, Repr

/-- The goroutines a watcher starts. -/
inductive Routine where
  | RunTemplateBroadcaster
  | RunBlockCastListener
  deriving DecidableEq, Repr

/-- The fields of `StratumServer` that `HandleCoinserverWatcherUpdates` reads or
writes, with the list of goroutines started so far (watcher id and routine). -/
structure StratumServer where
  coinserverWatchers : GoMap String CoinserverWatcher
  blockCast : GoMap String Broadcaster
  goroutines : List (String × Routine)
  deriving DecidableEq, Repr

/-- The method `CoinserverWatcher.Stop`. It returns at once when the shutdown
channel is nil; otherwise it closes the channel, which panics when the channel
is closed already, and then waits on the wait group. `wgReleased` tells whether
`cw.wg.Wait()` returns, that is whether every goroutine that called `wg.Add`
also reaches `wg.Done`. -/
def CoinserverWatcher.Stop (wgReleased : Bool) (cw : CoinserverWatcher) :
    Outcome CoinserverWatcher :=
  match cw.shutdown with
  | .nil => .ok cw
  | .closed => .panic .closeOfClosedChannel
  | .opened =>
    let stopped := { cw with shutdown := .closed }
    if wgReleased then .ok stopped else .blocked stopped

/-- The method `CoinserverWatcher.Start`: a fresh wait group, a fresh shutdown
channel, and the two goroutines. -/
def CoinserverWatcher.Start (cw : CoinserverWatcher) :
    CoinserverWatcher × List (String × Routine) :=
  ({ cw with shutdown := .opened },
   [(cw.id, .RunTemplateBroadcaster), (cw.id, .RunBlockCastListener)])

/-- The method `StratumServer.getBlockCast`: look up the broadcaster of a
currency, creating it with buffer length 10 when it is missing. -/
def getBlockCast (n : StratumServer) (key : String) : StratumServer × Broadcaster :=
  match n.blockCast.get key with
  | some b => (n, b)
  | none =>
    let b := NewBroadcaster 10
    ({ n with blockCast := n.blockCast.set key b }, b)

/-- The loop over `tmplKeys` that sets `found` when a configured key equals the
key of the event. -/
def keyFound (tmplKey : TemplateKey) : List TemplateKey → Bool
  | [] => false
  | key :: rest => if key = tmplKey then true else keyFound tmplKey rest

/-- The labels read by the `added` case before the interest check. -/
def readTemplateKey (labels : GoMap String LabelValue) : Except Fault TemplateKey :=
  match assertString (labels.get "currency") with
  | .error f => .error f
  | .ok currency =>
    match assertString (labels.get "algo") with
    | .error f => .error f
    | .ok algo =>
      match assertString (labels.get "template_type") with
      | .error f => .error f
      | .ok templateType =>
        .ok { Algo := algo, Currency := currency, TemplateType := templateType }

/-- The `added` case of `HandleCoinserverWatcherUpdates`. -/
def handleAdded (tmplKeys : List TemplateKey) (n : StratumServer)
    (update : ServiceStatusUpdate) : Outcome StratumServer :=
  let labels := update.Status.Labels
  match readTemplateKey labels with
  | .error f => .panic f
  | .ok tmplKey =>
    if keyFound tmplKey tmplKeys = false then
      -- not interested: log and continue with the next update
      .ok n
    else
      match assertString (labels.get "currency") with
      | .error f => .panic f
      | .ok currency =>
        let (n1, blockCast) := getBlockCast n currency
        match assertString (labels.get "endpoint") with
        | .error f => .panic f
        | .ok endpoint =>
          let cw : CoinserverWatcher :=
            { endpoint := endpoint, status := "starting", blockCast := blockCast,
              id := update.ServiceID, tmplKey := tmplKey, shutdown := .nil }
          let (started, spawned) := cw.Start
          let n2 : StratumServer :=
            { n1 with
              coinserverWatchers := n1.coinserverWatchers.set update.ServiceID started,
              goroutines := n1.goroutines ++ spawned }
          -- the debug line slices `update.ServiceID[:8]`
          match checkSliceTo update.ServiceID 8 with
          | .error f => .panic f
          | .ok _ => .ok n2

/-- The `removed` case of `HandleCoinserverWatcherUpdates`. The watcher is held
by pointer, so what `Stop` does to it shows in the table entry; the table itself
is not written. -/
def handleRemoved (wgReleased : Bool) (n : StratumServer)
    (update : ServiceStatusUpdate) : Outcome StratumServer :=
  match n.coinserverWatchers.get update.ServiceID with
  | none => .ok n
  | some csw =>
    -- the info line slices `update.ServiceID[:8]`
    match checkSliceTo update.ServiceID 8 with
    | .error f => .panic f
    | .ok _ =>
      match csw.Stop wgReleased with
      | .panic f => .panic f
      | .ok stopped =>
        .ok { n with
              coinserverWatchers := n.coinserverWatchers.set update.ServiceID stopped }
      | .blocked stopped =>
        .blocked { n with
              coinserverWatchers := n.coinserverWatchers.set update.ServiceID stopped }

/-- One iteration of the loop of `HandleCoinserverWatcherUpdates`: the handling
of one update received from the channel. -/
def handleUpdate (tmplKeys : List TemplateKey) (wgReleased : Bool) (n : StratumServer)
    (update : ServiceStatusUpdate) : Outcome StratumServer :=
  if update.Action = "removed" then handleRemoved wgReleased n update
  else if update.Action = "updated" then .ok n
  else if update.Action = "added" then handleAdded tmplKeys n update
  else .ok n

/-- The loop of `HandleCoinserverWatcherUpdates` over the updates received, each
paired with the answer of the wait group should the update reach `Stop`. An
update is handled only when every earlier one ran to completion. -/
def HandleCoinserverWatcherUpdates (tmplKeys : List TemplateKey) :
    StratumServer → List (ServiceStatusUpdate × Bool) → Outcome StratumServer
  | n, [] => .ok n
  | n, (update, wgReleased) :: rest =>
    match handleUpdate tmplKeys wgReleased n update with
    | .ok n1 => HandleCoinserverWatcherUpdates tmplKeys n1 rest
    | .panic f => .panic f
    | .blocked n1 => .blocked n1

/-! ## Hashes, integers and their text forms -/

/-- The method `big.Int.SetBytes`: the bytes read as a big-endian number. -/
def setBytes (bs : Bytes) : Nat := bs.foldl (fun acc b => acc * 256 + b) 0

/-- The big-endian digits of `n` in base 256 put in front of `acc`; `fuel`
bounds the number of digits produced. -/
def natBytesAux : Nat → Nat → Bytes → Bytes
  | 0, _, acc => acc
  | fuel + 1, n, acc =>
    if n = 0 then acc else natBytesAux fuel (n / 256) (n % 256 :: acc)

/-- The method `big.Int.Bytes`: the absolute value as big-endian bytes with no
leading zero byte, so zero gives the empty slice. -/
def bigBytes (x : Int) : Bytes := natBytesAux x.natAbs x.natAbs []

/-- The method `big.Int.String`: the value in decimal. -/
def bigString (x : Int) : String :=
  if x < 0 then "-" ++ Nat.repr x.natAbs else Nat.repr x.natAbs

/-- One digit of the table `0123456789abcdef` of `encoding/hex`. -/
def hexDigit (n : Nat) : Char := "0123456789abcdef".toList.getD n '0'

/-- The function `hex.EncodeToString`: two lowercase digits for every byte. -/
def hexEncodeToString (bs : Bytes) : String :=
  String.mk (bs.flatMap fun b => [hexDigit (b / 16), hexDigit (b % 16)])

/-- The bytes of a Go string. -/
def strBytes (s : String) : Bytes := s.toUTF8.data.toList.map UInt8.toNat

/-- The struct `BlockSolve`; both `*big.Int` fields are integers. -/
structure BlockSolve where
  powhash : Int
  difficulty : Int
  height : Int
  subsidy : Int
  data : Bytes
  deriving DecidableEq, Repr

/-- The method `BlockSolve.getBlockHash`. The hasher `sha256d` stands for
`sha256d.New()` followed by `Write` and `Sum(nil)`. -/
def BlockSolve.getBlockHash (sha256d : Bytes → Bytes) (b : BlockSolve) : Int :=
  Int.ofNat (setBytes (sha256d b.data))

/-- The serialised block header: the first 80 bytes of a serialised block
(version, previous hash, merkle root, time, bits, nonce). -/
def blockHeader (data : Bytes) : Bytes := data.take 80

/-! ## The share recorder -/

/-- The struct `Share`. The time is a timestamp and the float64 difficulty is
its bit pattern: both are only copied into rows. The map `blocks` is the list
of its entries in the order the `range` loop visits them. -/
structure Share where
  username : String
  time : Nat
  difficulty : Nat
  blocks : List (String × BlockSolve)
  deriving DecidableEq, Repr

/-- The arguments of the `INSERT INTO block` statement, by column. -/
structure BlockRow where
  height : Int
  currency : String
  hash : String
  powhash : String
  subsidy : Int
  mined_at : Nat
  mined_by : String
  difficulty : String
  chain : String
  deriving DecidableEq, Repr

/-- The arguments of the `INSERT INTO share` statement, by column. -/
structure ShareRow where
  username : String
  difficulty : Nat
  mined_at : Nat
  chain : String
  deriving DecidableEq, Repr

/-- A statement handed to `n.db.Exec`. -/
inductive Insert where
  | block (row : BlockRow)
  | share (row : ShareRow)
  deriving DecidableEq, Repr

/-- What `ListenShares` does that is visible outside of it, in order. -/
inductive RecorderEvent where
  /-- The call `n.blockCast[currencyCode].Submit(block)`. -/
  | submit (currencyCode : String) (block : BlockSolve)
  /-- The call `n.db.Exec` with the given statement. -/
  | exec (stmt : Insert)
  /-- The call `log.Error` after a failed `Exec`. -/
  | logError (msg : String) (err : String)
  deriving DecidableEq, Repr

/-- The database as `ListenShares` sees it: given everything done so far and
the statement, `Exec` returns an error or none. -/
abbrev DbExec := List RecorderEvent → Insert → Option String

/-- The body of the `range share.blocks` loop for one entry. -/
def recordBlock (sha256d : Bytes → Bytes) (dbExec : DbExec) (chainName : String)
    (blockCast : GoMap String Broadcaster) (share : Share)
    (trace : List RecorderEvent) (entry : String × BlockSolve) :
    Except Fault (List RecorderEvent) :=
  let currencyCode := entry.1
  let block := entry.2
  match blockCast.get currencyCode with
  | none => .error .nilDereference
  | some _ =>
    let t1 := trace ++ [.submit currencyCode block]
    let stmt := Insert.block
      { height := block.height,
        currency := currencyCode,
        hash := hexEncodeToString (bigBytes (block.getBlockHash sha256d)),
        powhash := hexEncodeToString (bigBytes block.powhash),
        subsidy := block.subsidy,
        mined_at := share.time,
        mined_by := share.username,
        difficulty := bigString block.difficulty,
        chain := chainName }
    match dbExec t1 stmt with
    | none => .ok (t1 ++ [.exec stmt])
    | some err => .ok (t1 ++ [.exec stmt, .logError "Failed to save block" err])

/-- The state of `listenTemplates`: its local map, the server's `lastJob`, and
the jobs submitted to `jobCast`, oldest first. -/
structure TemplateListener (Job : Type) where
  latestTemp : GoMap TemplateKey Bytes
  lastJob : Option Job
  jobCast : List Job

/-- One iteration of the loop of `listenTemplates`. The job builder
`NewJobFromTemplates` is defined in another file; it reads the map. -/
def listenTemplatesStep {Job : Type}
    (NewJobFromTemplates : GoMap TemplateKey Bytes → Except String Job)
    (st : TemplateListener Job) (newTemplate : Template) : TemplateListener Job :=
  let latestTemp := st.latestTemp.set newTemplate.key newTemplate.data
  match NewJobFromTemplates latestTemp with
  | .error _ => { st with latestTemp := latestTemp }
  | .ok job => { latestTemp := latestTemp, lastJob := some job, jobCast := st.jobCast ++ [job] }

/-- The loop of `listenTemplates` over the templates received from
`newTemplate`, starting from the empty map. -/
def listenTemplates {Job : Type}
    (NewJobFromTemplates : GoMap TemplateKey Bytes → Except String Job)
    (templates : List Template) : TemplateListener Job :=
  templates.foldl (listenTemplatesStep NewJobFromTemplates)
    { latestTemp := [], lastJob := none, jobCast := [] }

/-! ## The block submitter of a watcher -/

/-- What `client.RawRequest` returns: the raw result and the error. -/
structure RpcReply where
  rawResult : Bytes
  err : Option String
  deriving DecidableEq, Repr

/-- The RPC endpoint as the listener sees it: method and raw parameters in,
reply out. -/
abbrev RawRequest := String → List Bytes → RpcReply

/-- The lines `RunBlockCastListener` logs after a submission. -/
inductive SubmitLog where
  /-- The line `Error submitting block`. -/
  | errorSubmitting (err : String)
  /-- The line `Found a block!`. -/
  | foundBlock
  /-- The line `Found a block! (inconclusive)`. -/
  | foundBlockInconclusive
  /-- The line `Maybe found a block` with the response. -/
  | maybeFoundBlock (resp : Bytes)
  deriving DecidableEq, Repr

/-- The slice expression `b[lo:hi]` on a byte slice; the bounds are integers
because the code computes `len(b)-1`. -/
def sliceBytes (b : Bytes) (lo hi : Int) : Except Fault Bytes :=
  if 0 ≤ lo ∧ lo ≤ hi ∧ hi ≤ (b.length : Int) then
    .ok ((b.drop lo.toNat).take (hi.toNat - lo.toNat))
  else .error .sliceBounds

/-- The call `json.Marshal` on a string of hex digits: the string between two
double quotes, since no hex digit needs escaping. -/
def jsonMarshalHex (hexString : String) : Bytes :=
  [34] ++ strBytes hexString ++ [34]

/-- The body of the loop of `RunBlockCastListener` for one received block:
the request sent and the line logged, or the panic raised. -/
def submitBlock (rawRequest : RawRequest) (newBlock : BlockSolve) :
    Except Fault SubmitLog :=
  let hexString := hexEncodeToString newBlock.data
  let encodedBlock := jsonMarshalHex hexString
  let params := [encodedBlock, [91, 93]]
  let reply := rawRequest "submitblock" params
  match sliceBytes reply.rawResult 1 ((reply.rawResult.length : Int) - 1) with
  | .error f => .error f
  | .ok res =>
    match reply.err with
    | some err => .ok (.errorSubmitting err)
    | none =>
      if res = strBytes "" then .ok .foundBlock
      else if res = strBytes "inconclusive" then .ok .foundBlockInconclusive
      else .ok (.maybeFoundBlock res)

/-- Where the goroutine `RunBlockCastListener` stands. -/
inductive ListenerPC where
  /-- Blocked in `msg := <-listener`. -/
  | waiting
  /-- The function has returned and its deferred calls have run. -/
  | returned
  /-- The goroutine has panicked and its deferred calls have run. -/
  | crashed (f : Fault)
  deriving DecidableEq, Repr

/-- The state of the goroutine `RunBlockCastListener`: where it stands, what
it has added to the wait group and not yet taken back with `Done`, whether
its channel is registered on the broadcaster, and the lines logged. -/
structure ListenerState where
  pc : ListenerPC
  wgCount : Nat
  registered : Bool
  logged : List SubmitLog
  deriving DecidableEq, Repr

/-- The statements of `RunBlockCastListener` before its loop: `wg.Add(1)` with
the deferred `wg.Done`, the logger built from `cw.id[:8]`, the host built from
`cw.endpoint[7:]`, and the registration of the listener channel. A panic at
one of the two slices comes before the registration and runs the deferred
`wg.Done`, which takes the count back to zero. -/
def listenerStart (cw : CoinserverWatcher) : ListenerState :=
  match checkSliceTo cw.id 8 with
  | .error f => { pc := .crashed f, wgCount := 1 - 1, registered := false, logged := [] }
  | .ok _ =>
    match checkSliceFrom cw.endpoint 7 with
    | .error f => { pc := .crashed f, wgCount := 1 - 1, registered := false, logged := [] }
    | .ok _ => { pc := .waiting, wgCount := 1, registered := true, logged := [] }

/-- One step of the goroutine `RunBlockCastListener` when a block arrives on
its channel. The state of the shutdown channel is passed in to show what the
goroutine could look at; the loop has no case that reads it. A panic in the
loop body runs the deferred calls on the way out: the listener channel is
unregistered and closed, then `wg.Done` is called. -/
def listenerStep (_shutdown : Chan) (st : ListenerState)
    (input : BlockSolve × RawRequest) : ListenerState :=
  match st.pc with
  | .waiting =>
    match submitBlock input.2 input.1 with
    | .error f =>
      { st with pc := .crashed f, registered := false, wgCount := st.wgCount - 1 }
    | .ok line => { st with logged := st.logged ++ [line] }
  | .returned => st
  | .crashed _ => st

/-- The goroutine `RunBlockCastListener` run on the blocks that arrive. -/
def RunBlockCastListener (cw : CoinserverWatcher) (shutdown : Chan)
    (inputs : List (BlockSolve × RawRequest)) : ListenerState :=
  inputs.foldl (listenerStep shutdown) (listenerStart cw)

/-! ## The template stream of a watcher -/

/-- The fields of `sse.Event` the watcher reads; a nil slice is `none`. -/
structure SseEvent where
  Event : Option Bytes
  Data : Option Bytes
  deriving DecidableEq, Repr

/-- Where the goroutine `RunTemplateBroadcaster` stands. -/
inductive BroadcasterPC where
  /-- At the head of the outer loop, about to call `client.SubscribeChan`. -/
  | subscribing
  /-- In the `select` on the shutdown channel and the two second timer. -/
  | retryWait
  /-- In the `select` of the inner loop, on the shutdown channel and `events`. -/
  | receiving
  /-- The function has returned. -/
  | returned
  /-- The goroutine has panicked and its deferred calls have run. -/
  | crashed (f : Fault)
  deriving DecidableEq, Repr

/-- What the goroutine `RunTemplateBroadcaster` receives at its waits. -/
inductive BroadcasterInput where
  /-- The call `client.SubscribeChan` returned, with an error or without. -/
  | subscribed (failed : Bool)
  /-- A `select` took the case `<-cw.shutdown`. -/
  | shutdown
  /-- The `select` took the case `<-time.After(time.Second * 2)`. -/
  | timer
  /-- The `select` took the case `msg := <-events`; `none` is the nil pointer. -/
  | event (msg : Option SseEvent)
  deriving DecidableEq, Repr

/-- The state of the goroutine `RunTemplateBroadcaster`: where it stands, the
field `cw.status`, the local `lastEvent`, the templates sent on `newTemplate`,
and what it has added to the wait group and not yet taken back. -/
structure BroadcasterState where
  pc : BroadcasterPC
  status : String
  lastEvent : SseEvent
  sent : List Template
  wgCount : Nat
  deriving DecidableEq, Repr

/-- The statements of `RunTemplateBroadcaster` before its loop: `wg.Add(1)` with
the deferred `wg.Done`, and the logger built from `cw.id[:8]`. A panic at the
slice runs the deferred `wg.Done`, which takes the count back to zero. -/
def broadcasterStart (cw : CoinserverWatcher) : BroadcasterState :=
  match checkSliceTo cw.id 8 with
  | .error f =>
    { pc := .crashed f, status := cw.status, lastEvent := ⟨none, none⟩, sent := [],
      wgCount := 1 - 1 }
  | .ok _ =>
    { pc := .subscribing, status := cw.status, lastEvent := ⟨none, none⟩, sent := [],
      wgCount := 1 }

/-- One step of the goroutine `RunTemplateBroadcaster`. `decode` stands for
`base64.StdEncoding.DecodeString`; its error is logged and the decoded bytes
are used either way. An input that the current wait does not offer leaves the
state as it is. -/
def broadcasterStep (tmplKey : TemplateKey) (decode : Bytes → Bytes)
    (st : BroadcasterState) (input : BroadcasterInput) : BroadcasterState :=
  match st.pc, input with
  | .subscribing, .subscribed true =>
    { st with status := "down", pc := .retryWait }
  | .subscribing, .subscribed false =>
    { st with lastEvent := ⟨none, none⟩, status := "up", pc := .receiving }
  | .retryWait, .shutdown => { st with pc := .returned, wgCount := st.wgCount - 1 }
  | .retryWait, .timer => { st with pc := .subscribing }
  | .receiving, .shutdown => { st with pc := .returned, wgCount := st.wgCount - 1 }
  | .receiving, .event none =>
    -- the `break` ends the `select` statement; the inner `for` goes round again
    st
  | .receiving, .event (some msg) =>
    let withEvent : SseEvent :=
      match msg.Event with
      | some e => { st.lastEvent with Event := some e }
      | none => st.lastEvent
    match msg.Data with
    | none => { st with lastEvent := withEvent }
    | some data =>
      let decoded := decode data
      { st with
        lastEvent := { withEvent with Data := some decoded },
        sent := st.sent ++ [{ data := decoded, key := tmplKey }],
        status := "live" }
  | _, _ => st

/-- The goroutine `RunTemplateBroadcaster` run on the inputs it receives. -/
def RunTemplateBroadcaster (cw : CoinserverWatcher) (decode : Bytes → Bytes)
    (inputs : List BroadcasterInput) : BroadcasterState :=
  inputs.foldl (broadcasterStep cw.tmplKey decode) (broadcasterStart cw)

/-- Whether `cw.wg.Wait()` returns once both goroutines of a watcher have run
as far as they ever get: the counter of the wait group is back to zero. -/
def waitGroupReleased (b : BroadcasterState) (l : ListenerState) : Bool :=
  decide (b.wgCount + l.wgCount = 0)

/-! ## Sample inputs -/

/-- A configured interest set: one base currency. -/
def sampleKeys : List TemplateKey := [⟨"sha256d", "BTC", "base"⟩]

/-- The labels a BTC coinserver registers with. -/
def sampleLabels : GoMap String LabelValue :=
  [("currency", .str "BTC"), ("algo", .str "sha256d"), ("template_type", .str "base"),
   ("endpoint", .str "http://127.0.0.1:3000/")]

/-- An `added` event for the service `coinserver-0001`. -/
def sampleAdded : ServiceStatusUpdate :=
  { Action := "added", ServiceID := "coinserver-0001", Status := ⟨sampleLabels⟩ }

/-- A `removed` event for the service `coinserver-0001`. -/
def sampleRemoved : ServiceStatusUpdate :=
  { Action := "removed", ServiceID := "coinserver-0001", Status := ⟨[]⟩ }

/-- The server right after `NewStratumServer`: both maps empty. -/
def emptyServer : StratumServer :=
  { coinserverWatchers := [], blockCast := [], goroutines := [] }

/-- The watcher that `sampleAdded` creates, after `Start`. -/
def sampleWatcher : CoinserverWatcher :=
  { id := "coinserver-0001", tmplKey := ⟨"sha256d", "BTC", "base"⟩,
    endpoint := "http://127.0.0.1:3000/", status := "starting",
    blockCast := NewBroadcaster 10, shutdown := .opened }

/-- An `added` event whose labels lack the currency. -/
def addedWithoutCurrency : ServiceStatusUpdate :=
  { Action := "added", ServiceID := "coinserver-0002",
    Status := ⟨[("algo", .str "sha256d"), ("template_type", .str "base"),
      ("endpoint", .str "http://127.0.0.1:3000/")]⟩ }

/-- An `added` event whose currency label is a number. -/
def addedWithNumericCurrency : ServiceStatusUpdate :=
  { Action := "added", ServiceID := "coinserver-0002",
    Status := ⟨[("currency", .num 1), ("algo", .str "sha256d"),
      ("template_type", .str "base"), ("endpoint", .str "http://127.0.0.1:3000/")]⟩ }

/-- An `added` event for a configured key whose labels lack the endpoint. -/
def addedWithoutEndpoint : ServiceStatusUpdate :=
  { Action := "added", ServiceID := "coinserver-0002",
    Status := ⟨[("currency", .str "BTC"), ("algo", .str "sha256d"),
      ("template_type", .str "base")]⟩ }

/-- An `added` event for a configured key with a three byte service id. -/
def addedWithShortID : ServiceStatusUpdate :=
  { Action := "added", ServiceID := "cs1", Status := ⟨sampleLabels⟩ }

/-- A solved block: 80 header bytes followed by one more byte. -/
def sampleBlock : BlockSolve :=
  { powhash := 4660, difficulty := 7, height := 100, subsidy := 5000000000,
    data := List.replicate 80 0 ++ [1] }

/-- A share of `alice` that solves a BTC block. -/
def sampleShare : Share :=
  { username := "alice", time := 1500000000, difficulty := 16, blocks := [("BTC", sampleBlock)] }

/-- A hasher standing in for sha256d in evaluations: it returns its input. -/
def wholeInput : Bytes → Bytes := fun data => data

/-- A hasher standing in for sha256d in evaluations: a 32-byte digest whose
first byte is zero, whatever the input. -/
def leadingZeroDigest : Bytes → Bytes := fun _ => 0 :: List.replicate 31 255

/-- A database on which every `Exec` succeeds. -/
def workingDb : DbExec := fun _ _ => none

end NgPool

/-! # Theorems -/

namespace NgPool

/-! ## Maps -/

theorem GoMap.get_set_self {κ ν : Type} [DecidableEq κ] (m : GoMap κ ν) (k : κ) (v : ν) :
    GoMap.get (GoMap.set m k v) k = some v := by
  induction m with
  | nil => simp [GoMap.set, GoMap.get]
  | cons p rest ih =>
    obtain ⟨a, b⟩ := p
    by_cases h : a = k
    · simp [GoMap.set, GoMap.get, h]
    · simp [GoMap.set, GoMap.get, h, ih]

theorem GoMap.get_set_other {κ ν : Type} [DecidableEq κ] (m : GoMap κ ν) (k j : κ) (v : ν)
    (h : j ≠ k) : GoMap.get (GoMap.set m k v) j = GoMap.get m j := by
  induction m with
  | nil =>
    have hkj : ¬ k = j := fun e => h e.symm
    simp [GoMap.set, GoMap.get, hkj]
  | cons p rest ih =>
    obtain ⟨a, b⟩ := p
    by_cases hak : a = k
    · subst hak
      have haj : ¬ a = j := fun e => h e.symm
      simp [GoMap.set, GoMap.get, haj]
    · by_cases haj : a = j
      · subst haj
        simp [GoMap.set, GoMap.get, hak]
      · simp [GoMap.set, GoMap.get, hak, haj, ih]

/-! ## The registry handler -/

theorem keyFound_iff (tmplKey : TemplateKey) (tmplKeys : List TemplateKey) :
    keyFound tmplKey tmplKeys = true ↔
      ∃ k ∈ tmplKeys, k.Currency = tmplKey.Currency ∧ k.Algo = tmplKey.Algo ∧
        k.TemplateType = tmplKey.TemplateType := by
  induction tmplKeys with
  | nil => simp [keyFound]
  | cons key rest ih =>
    by_cases h : key = tmplKey
    · subst h
      simp [keyFound]
    · have hne : ¬ (key.Currency = tmplKey.Currency ∧ key.Algo = tmplKey.Algo ∧
          key.TemplateType = tmplKey.TemplateType) := by
        rintro ⟨h1, h2, h3⟩
        apply h
        cases key
        cases tmplKey
        simp_all
      simp [keyFound, h, ih, hne]

theorem getBlockCast_get (n : StratumServer) (key : String) :
    (getBlockCast n key).1.blockCast.get key = some (getBlockCast n key).2 ∧
    (getBlockCast n key).1.coinserverWatchers = n.coinserverWatchers ∧
    (getBlockCast n key).1.goroutines = n.goroutines := by
  unfold getBlockCast
  cases h : GoMap.get n.blockCast key with
  | none => simp [GoMap.get_set_self]
  | some b => simp [h]

/-- C1: an `added` event with well-formed labels (four string labels and a
service id of at least 8 bytes) is handled without a panic, and a watcher is
recorded under the service id and started (shutdown channel made, both
goroutines launched, broadcaster of its currency present) exactly when some
configured key agrees with the labels on currency, algo and template type;
when no configured key does, the watcher table and the broadcaster table are
left as they were. -/
theorem added_starts_watcher_iff_key_configured
    (tmplKeys : List TemplateKey) (wgReleased : Bool) (n : StratumServer)
    (update : ServiceStatusUpdate) (currency algo templateType endpoint : String)
    (hAction : update.Action = "added")
    (hCurrency : update.Status.Labels.get "currency" = some (.str currency))
    (hAlgo : update.Status.Labels.get "algo" = some (.str algo))
    (hType : update.Status.Labels.get "template_type" = some (.str templateType))
    (hEndpoint : update.Status.Labels.get "endpoint" = some (.str endpoint))
    (hID : 8 ≤ goLen update.ServiceID) :
    ∃ n2, handleUpdate tmplKeys wgReleased n update = .ok n2 ∧
      ((∃ cw, n2.coinserverWatchers.get update.ServiceID = some cw ∧
          cw.id = update.ServiceID ∧
          cw.tmplKey = ⟨algo, currency, templateType⟩ ∧
          cw.endpoint = endpoint ∧ cw.status = "starting" ∧
          cw.shutdown = .opened ∧
          n2.blockCast.get currency = some cw.blockCast ∧
          n2.goroutines = n.goroutines ++
            [(update.ServiceID, .RunTemplateBroadcaster),
             (update.ServiceID, .RunBlockCastListener)])
        ↔ ∃ k ∈ tmplKeys, k.Currency = currency ∧ k.Algo = algo ∧
            k.TemplateType = templateType) ∧
      ((¬ ∃ k ∈ tmplKeys, k.Currency = currency ∧ k.Algo = algo ∧
            k.TemplateType = templateType) →
        n2.coinserverWatchers = n.coinserverWatchers ∧ n2.blockCast = n.blockCast) := by
  have hr : ("added" : String) ≠ "removed" := by decide
  have hu : ("added" : String) ≠ "updated" := by decide
  have hkey : readTemplateKey update.Status.Labels = .ok ⟨algo, currency, templateType⟩ := by
    simp [readTemplateKey, hCurrency, hAlgo, hType, assertString]
  have hslice : checkSliceTo update.ServiceID 8 = .ok () := by
    simp [checkSliceTo, hID]
  have hfound := keyFound_iff ⟨algo, currency, templateType⟩ tmplKeys
  simp only at hfound
  by_cases hk : keyFound ⟨algo, currency, templateType⟩ tmplKeys = true
  · have hex := hfound.mp hk
    obtain ⟨hb, hw, hg⟩ := getBlockCast_get n currency
    refine ⟨{ (getBlockCast n currency).1 with
        coinserverWatchers := (getBlockCast n currency).1.coinserverWatchers.set
          update.ServiceID
          { endpoint := endpoint, status := "starting",
            blockCast := (getBlockCast n currency).2,
            id := update.ServiceID, tmplKey := ⟨algo, currency, templateType⟩,
            shutdown := .opened },
        goroutines := (getBlockCast n currency).1.goroutines ++
          [(update.ServiceID, .RunTemplateBroadcaster),
           (update.ServiceID, .RunBlockCastListener)] }, ?_, ?_, ?_⟩
    · simp [handleUpdate, hAction, hr, hu, handleAdded, hkey, hk, hCurrency, hEndpoint,
        assertString, hslice, CoinserverWatcher.Start]
    · constructor
      · intro _
        exact hex
      · intro _
        refine ⟨_, GoMap.get_set_self _ _ _, rfl, rfl, rfl, rfl, rfl, ?_, ?_⟩
        · exact hb
        · simp [hg]
    · intro hno
      exact absurd hex hno
  · have hkf : keyFound ⟨algo, currency, templateType⟩ tmplKeys = false := by
      simpa using hk
    have hno : ¬ ∃ k ∈ tmplKeys, k.Currency = currency ∧ k.Algo = algo ∧
        k.TemplateType = templateType := fun h => hk (hfound.mpr h)
    refine ⟨n, ?_, ?_, ?_⟩
    · simp [handleUpdate, hAction, hr, hu, handleAdded, hkey, hkf]
    · constructor
      · rintro ⟨cw, _, _, _, _, _, _, _, hg⟩
        have hlen := congrArg List.length hg
        simp at hlen
      · intro h
        exact absurd h hno
    · intro _
      exact ⟨rfl, rfl⟩

/-- Witness of C1: the `added` event of a BTC coinserver on a fresh server whose
interest set holds the BTC base key. -/
theorem added_starts_watcher_iff_key_configured_witness :
    (sampleAdded.Action = "added" ∧
      sampleAdded.Status.Labels.get "currency" = some (.str "BTC") ∧
      sampleAdded.Status.Labels.get "algo" = some (.str "sha256d") ∧
      sampleAdded.Status.Labels.get "template_type" = some (.str "base") ∧
      sampleAdded.Status.Labels.get "endpoint" = some (.str "http://127.0.0.1:3000/") ∧
      8 ≤ goLen sampleAdded.ServiceID) ∧
    ∃ n2, handleUpdate sampleKeys false emptyServer sampleAdded = .ok n2 ∧
      ((∃ cw, n2.coinserverWatchers.get sampleAdded.ServiceID = some cw ∧
          cw.id = sampleAdded.ServiceID ∧
          cw.tmplKey = ⟨"sha256d", "BTC", "base"⟩ ∧
          cw.endpoint = "http://127.0.0.1:3000/" ∧ cw.status = "starting" ∧
          cw.shutdown = .opened ∧
          n2.blockCast.get "BTC" = some cw.blockCast ∧
          n2.goroutines = emptyServer.goroutines ++
            [(sampleAdded.ServiceID, .RunTemplateBroadcaster),
             (sampleAdded.ServiceID, .RunBlockCastListener)])
        ↔ ∃ k ∈ sampleKeys, k.Currency = "BTC" ∧ k.Algo = "sha256d" ∧
            k.TemplateType = "base") ∧
      ((¬ ∃ k ∈ sampleKeys, k.Currency = "BTC" ∧ k.Algo = "sha256d" ∧
            k.TemplateType = "base") →
        n2.coinserverWatchers = emptyServer.coinserverWatchers ∧
          n2.blockCast = emptyServer.blockCast) :=
  ⟨by decide,
   added_starts_watcher_iff_key_configured sampleKeys false emptyServer sampleAdded
     "BTC" "sha256d" "base" "http://127.0.0.1:3000/"
     (by decide) (by decide) (by decide) (by decide) (by decide) (by decide)⟩

/-! ## The template store -/

theorem listenTemplatesStep_latestTemp {Job : Type}
    (NewJobFromTemplates : GoMap TemplateKey Bytes → Except String Job)
    (st : TemplateListener Job) (t : Template) :
    (listenTemplatesStep NewJobFromTemplates st t).latestTemp =
      st.latestTemp.set t.key t.data := by
  unfold listenTemplatesStep
  simp only
  split <;> rfl

theorem listenTemplatesStep_get {Job : Type}
    (NewJobFromTemplates : GoMap TemplateKey Bytes → Except String Job)
    (st : TemplateListener Job) (t : Template) (j : TemplateKey) :
    (listenTemplatesStep NewJobFromTemplates st t).latestTemp.get j =
      if j = t.key then some t.data else st.latestTemp.get j := by
  rw [listenTemplatesStep_latestTemp]
  by_cases h : j = t.key
  · simp [h, GoMap.get_set_self]
  · simp [h, GoMap.get_set_other _ _ _ _ h]

/-- C2: the store of `listenTemplates` is latest-per-key. After any finite
sequence of templates the entry of a key `k` is the data of the last template
of the sequence whose key is `k`, and there is no entry when no template had
that key; one iteration sets the entry of the template's own key to its data
and leaves the entry of every other key as it was. -/
theorem listenTemplates_latest_per_key {Job : Type}
    (NewJobFromTemplates : GoMap TemplateKey Bytes → Except String Job)
    (templates : List Template) (k : TemplateKey)
    (st : TemplateListener Job) (t : Template) (j : TemplateKey) :
    (listenTemplates NewJobFromTemplates templates).latestTemp.get k =
        ((templates.filter fun u => decide (u.key = k)).getLast?).map Template.data ∧
    (listenTemplatesStep NewJobFromTemplates st t).latestTemp.get j =
        if j = t.key then some t.data else st.latestTemp.get j := by
  refine ⟨?_, listenTemplatesStep_get NewJobFromTemplates st t j⟩
  induction templates using List.reverseRecOn with
  | nil => simp [listenTemplates, GoMap.get]
  | append_singleton init u ih =>
    unfold listenTemplates at ih ⊢
    rw [List.foldl_append, List.foldl_cons, List.foldl_nil, listenTemplatesStep_get, ih]
    by_cases h : u.key = k
    · simp [List.filter_append, h]
    · have hk : ¬ k = u.key := fun e => h e.symm
      simp [List.filter_append, h, hk]

/-! ## The share recorder -/

set_option maxRecDepth 8192 in
/-- C4: `getBlockHash` hands all of `data` to the hasher, for every hasher and
every block, so the transactions after the header are hashed too: the result
is the hash of the 80 header bytes only when the hasher gives the same number
on the whole block and on its header. On the sample block (80 header bytes and
one byte after them), with a hasher that returns its input, the result is 1
while the hash of the header is 0. -/
theorem getBlockHash_hashes_all_of_data :
    (∀ (sha256d : Bytes → Bytes) (b : BlockSolve),
      b.getBlockHash sha256d = Int.ofNat (setBytes (sha256d b.data))) ∧
    (∀ (sha256d : Bytes → Bytes) (b : BlockSolve),
      b.getBlockHash sha256d = Int.ofNat (setBytes (sha256d (blockHeader b.data))) ↔
        setBytes (sha256d b.data) = setBytes (sha256d (blockHeader b.data))) ∧
    sampleBlock.getBlockHash wholeInput = 1 ∧
    Int.ofNat (setBytes (wholeInput (blockHeader sampleBlock.data))) = 0 := by
  refine ⟨fun _ _ => rfl, fun _ _ => ?_, by decide, by decide⟩
  unfold BlockSolve.getBlockHash
  exact Int.ofNat_inj

/-! ## Removal of a watcher -/

theorem GoMap.keys_set_of_get {κ ν : Type} [DecidableEq κ] (m : GoMap κ ν) (k : κ)
    (v w : ν) (h : GoMap.get m k = some w) :
    GoMap.keys (GoMap.set m k v) = GoMap.keys m := by
  induction m with
  | nil => simp [GoMap.get] at h
  | cons p rest ih =>
    obtain ⟨a, b⟩ := p
    by_cases hak : a = k
    · simp [GoMap.set, GoMap.keys, hak]
    · have hrest : GoMap.get rest k = some w := by simpa [GoMap.get, hak] using h
      have := ih hrest
      simp only [GoMap.keys] at this
      simp [GoMap.set, GoMap.keys, hak, this]

theorem handleRemoved_keys (wgReleased : Bool) (n : StratumServer)
    (update : ServiceStatusUpdate) :
    match handleRemoved wgReleased n update with
    | .ok n2 => n2.coinserverWatchers.keys = n.coinserverWatchers.keys
    | .blocked n2 => n2.coinserverWatchers.keys = n.coinserverWatchers.keys
    | .panic _ => True := by
  unfold handleRemoved
  cases hget : GoMap.get n.coinserverWatchers update.ServiceID with
  | none => simp
  | some csw =>
    cases hs : checkSliceTo update.ServiceID 8 with
    | error f => simp
    | ok u =>
      cases hsh : csw.shutdown with
      | nil => simp [CoinserverWatcher.Stop, hsh, GoMap.keys_set_of_get _ _ _ _ hget]
      | closed => simp [CoinserverWatcher.Stop, hsh]
      | opened =>
        cases wgReleased <;>
          simp [CoinserverWatcher.Stop, hsh, GoMap.keys_set_of_get _ _ _ _ hget]

/-- C5: a `removed` event never takes a key out of `coinserverWatchers`: when
the handler gets past the event, or blocks in `Stop`, the table has the keys it
had before. On the sample run the watcher added under `coinserver-0001` is
still in the table, with its shutdown channel closed, after the `removed`
event, both when `Stop` returns and when it blocks on the wait group, and a
second `removed` event for the same id panics with a close of a closed
channel. -/
theorem removed_keeps_watcher_entry :
    (∀ (tmplKeys : List TemplateKey) (wgReleased : Bool) (n : StratumServer)
        (serviceID : String) (status : ServiceStatus),
      match handleUpdate tmplKeys wgReleased n ⟨"removed", serviceID, status⟩ with
      | .ok n2 => n2.coinserverWatchers.keys = n.coinserverWatchers.keys
      | .blocked n2 => n2.coinserverWatchers.keys = n.coinserverWatchers.keys
      | .panic _ => True) ∧
    HandleCoinserverWatcherUpdates sampleKeys emptyServer
        [(sampleAdded, true), (sampleRemoved, true)] =
      .ok
        { coinserverWatchers :=
            [("coinserver-0001", { sampleWatcher with shutdown := .closed })],
          blockCast := [("BTC", NewBroadcaster 10)],
          goroutines := [("coinserver-0001", .RunTemplateBroadcaster),
            ("coinserver-0001", .RunBlockCastListener)] } ∧
    HandleCoinserverWatcherUpdates sampleKeys emptyServer
        [(sampleAdded, true), (sampleRemoved, false)] =
      .blocked
        { coinserverWatchers :=
            [("coinserver-0001", { sampleWatcher with shutdown := .closed })],
          blockCast := [("BTC", NewBroadcaster 10)],
          goroutines := [("coinserver-0001", .RunTemplateBroadcaster),
            ("coinserver-0001", .RunBlockCastListener)] } ∧
    HandleCoinserverWatcherUpdates sampleKeys emptyServer
        [(sampleAdded, true), (sampleRemoved, true), (sampleRemoved, true)] =
      .panic .closeOfClosedChannel := by
  refine ⟨?_, by decide, by decide, by decide⟩
  intro tmplKeys wgReleased n serviceID status
  have h := handleRemoved_keys wgReleased n ⟨"removed", serviceID, status⟩
  simpa [handleUpdate] using h

/-! ## Malformed registry events -/

/-- C6: an `added` event with a missing or non-string label is not skipped: the
type assertion panics. With the currency label missing, or a number, the
handler panics for every interest set and server state; with the endpoint
label missing and the key configured it panics too; with a service id shorter
than 8 bytes and the key configured it panics at the slice of the id; and a
well-formed event that follows a malformed one is not handled. -/
theorem malformed_added_event_panics :
    (∀ (tmplKeys : List TemplateKey) (wgReleased : Bool) (n : StratumServer),
      handleUpdate tmplKeys wgReleased n addedWithoutCurrency = .panic .typeAssertion) ∧
    (∀ (tmplKeys : List TemplateKey) (wgReleased : Bool) (n : StratumServer),
      handleUpdate tmplKeys wgReleased n addedWithNumericCurrency = .panic .typeAssertion) ∧
    (∀ (wgReleased : Bool) (n : StratumServer),
      handleUpdate sampleKeys wgReleased n addedWithoutEndpoint = .panic .typeAssertion) ∧
    (∀ (wgReleased : Bool) (n : StratumServer),
      handleUpdate sampleKeys wgReleased n addedWithShortID = .panic .sliceBounds) ∧
    HandleCoinserverWatcherUpdates sampleKeys emptyServer
        [(addedWithoutCurrency, true), (sampleAdded, true)] = .panic .typeAssertion := by
  refine ⟨?_, ?_, ?_, ?_, by decide⟩
  · intro tmplKeys wgReleased n
    rfl
  · intro tmplKeys wgReleased n
    rfl
  · intro wgReleased n
    rfl
  · intro wgReleased n
    rfl

/-! ## The template stream -/

theorem broadcasterStep_nil_event (tmplKey : TemplateKey) (decode : Bytes → Bytes)
    (status : String) (lastEvent : SseEvent) (sent : List Template) (wgCount : Nat) :
    broadcasterStep tmplKey decode ⟨.receiving, status, lastEvent, sent, wgCount⟩
      (.event none) = ⟨.receiving, status, lastEvent, sent, wgCount⟩ := rfl

theorem broadcaster_nil_events (tmplKey : TemplateKey) (decode : Bytes → Bytes)
    (status : String) (lastEvent : SseEvent) (sent : List Template) (wgCount k : Nat) :
    (List.replicate k (BroadcasterInput.event none)).foldl (broadcasterStep tmplKey decode)
      ⟨.receiving, status, lastEvent, sent, wgCount⟩ =
      ⟨.receiving, status, lastEvent, sent, wgCount⟩ := by
  induction k with
  | zero => rfl
  | succ k ih =>
    rw [List.replicate_succ, List.foldl_cons, broadcasterStep_nil_event]
    exact ih

/-- C7: a nil event received in the inner loop changes nothing: whatever the
status (`up` and `live` included), the goroutine is still in the receive loop
with the same status after it, and after any number of nil events. On the
sample watcher, a successful subscription followed by any number of nil events
leaves the status `up` and the goroutine in the receive loop: the status never
becomes `down` and no new subscription is made. -/
theorem nil_event_leaves_watcher_in_receive_loop :
    (∀ (tmplKey : TemplateKey) (decode : Bytes → Bytes) (status : String)
        (lastEvent : SseEvent) (sent : List Template) (wgCount k : Nat),
      (List.replicate k (BroadcasterInput.event none)).foldl
          (broadcasterStep tmplKey decode) ⟨.receiving, status, lastEvent, sent, wgCount⟩ =
        ⟨.receiving, status, lastEvent, sent, wgCount⟩) ∧
    (∀ (decode : Bytes → Bytes) (k : Nat),
      RunTemplateBroadcaster sampleWatcher decode
          (.subscribed false :: List.replicate k (.event none)) =
        ⟨.receiving, "up", ⟨none, none⟩, [], 1⟩) := by
  refine ⟨broadcaster_nil_events, ?_⟩
  intro decode k
  have hstart : broadcasterStep sampleWatcher.tmplKey decode (broadcasterStart sampleWatcher)
      (.subscribed false) = ⟨.receiving, "up", ⟨none, none⟩, [], 1⟩ := rfl
  unfold RunTemplateBroadcaster
  rw [List.foldl_cons, hstart]
  exact broadcaster_nil_events _ _ _ _ _ _ _

/-! ## The block submitter -/

theorem sliceBytes_quoted (s : Bytes) :
    sliceBytes ([34] ++ s ++ [34]) 1 ((([34] ++ s ++ [34] : Bytes).length : Int) - 1) =
      .ok s := by
  unfold sliceBytes
  have hlen : (([34] ++ s ++ [34] : Bytes).length : Int) - 1 = ((s.length + 1 : Nat) : Int) := by
    simp
  rw [hlen]
  have hcond : (0 : Int) ≤ 1 ∧ (1 : Int) ≤ ((s.length + 1 : Nat) : Int) ∧
      ((s.length + 1 : Nat) : Int) ≤ (([34] ++ s ++ [34] : Bytes).length : Int) := by
    refine ⟨by omega, by omega, ?_⟩
    simp
  rw [if_pos hcond]
  simp

/-- C8: when the `submitblock` request fails and the raw result that comes
with the error is empty or one byte long, the slice taken before the error is
looked at panics: the iteration logs nothing and the listener goroutine
crashes instead of waiting for the next block, its deferred calls taking the
channel off the broadcaster and the count off the wait group. -/
theorem submitblock_error_with_short_result_panics :
    (∀ (newBlock : BlockSolve) (err : String),
      submitBlock (fun _ _ => ⟨[], some err⟩) newBlock = .error .sliceBounds) ∧
    (∀ (newBlock : BlockSolve) (err : String) (b : Nat),
      submitBlock (fun _ _ => ⟨[b], some err⟩) newBlock = .error .sliceBounds) ∧
    (∀ (shutdown : Chan) (newBlock : BlockSolve) (err : String) (wgCount : Nat)
        (registered : Bool) (logged : List SubmitLog),
      listenerStep shutdown ⟨.waiting, wgCount, registered, logged⟩
          (newBlock, fun _ _ => ⟨[], some err⟩) =
        ⟨.crashed .sliceBounds, wgCount - 1, false, logged⟩) := by
  refine ⟨fun _ _ => rfl, fun _ _ _ => rfl, fun _ _ _ _ _ _ => rfl⟩

/-- C9: when the `submitblock` request succeeds with a result made of a double
quote, the bytes `s` and a double quote, the iteration logs `Found a block!`
when `s` is empty, `Found a block! (inconclusive)` when `s` is `inconclusive`,
and `Maybe found a block` with `s` otherwise; in all three cases it does not
panic and the listener is waiting for the next block afterwards. -/
theorem submitblock_string_reply_classified (rawRequest : RawRequest)
    (newBlock : BlockSolve) (s : Bytes)
    (hReply : rawRequest "submitblock"
        [jsonMarshalHex (hexEncodeToString newBlock.data), [91, 93]] =
      ⟨[34] ++ s ++ [34], none⟩) :
    submitBlock rawRequest newBlock =
      .ok (if s = [] then .foundBlock
        else if s = strBytes "inconclusive" then .foundBlockInconclusive
        else .maybeFoundBlock s) ∧
    ∀ (shutdown : Chan) (wgCount : Nat) (registered : Bool) (logged : List SubmitLog),
      listenerStep shutdown ⟨.waiting, wgCount, registered, logged⟩ (newBlock, rawRequest) =
        ⟨.waiting, wgCount, registered,
          logged ++ [if s = [] then .foundBlock
            else if s = strBytes "inconclusive" then .foundBlockInconclusive
            else .maybeFoundBlock s]⟩ := by
  have hempty : strBytes "" = [] := by decide
  have hsub : submitBlock rawRequest newBlock =
      .ok (if s = [] then .foundBlock
        else if s = strBytes "inconclusive" then .foundBlockInconclusive
        else .maybeFoundBlock s) := by
    unfold submitBlock
    simp only [hReply, sliceBytes_quoted, hempty]
    split_ifs <;> rfl
  refine ⟨hsub, ?_⟩
  intro shutdown wgCount registered logged
  unfold listenerStep
  simp only [hsub]

/-- Witness of C9: the daemon answers the sample block with the JSON string
`inconclusive`. -/
theorem submitblock_string_reply_classified_witness :
    submitBlock (fun _ _ => ⟨[34] ++ strBytes "inconclusive" ++ [34], none⟩) sampleBlock =
      .ok (if strBytes "inconclusive" = [] then .foundBlock
        else if strBytes "inconclusive" = strBytes "inconclusive" then .foundBlockInconclusive
        else .maybeFoundBlock (strBytes "inconclusive")) ∧
    ∀ (shutdown : Chan) (wgCount : Nat) (registered : Bool) (logged : List SubmitLog),
      listenerStep shutdown ⟨.waiting, wgCount, registered, logged⟩
          (sampleBlock, fun _ _ => ⟨[34] ++ strBytes "inconclusive" ++ [34], none⟩) =
        ⟨.waiting, wgCount, registered,
          logged ++ [if strBytes "inconclusive" = [] then .foundBlock
            else if strBytes "inconclusive" = strBytes "inconclusive" then
              .foundBlockInconclusive
            else .maybeFoundBlock (strBytes "inconclusive")]⟩ :=
  submitblock_string_reply_classified
    (fun _ _ => ⟨[34] ++ strBytes "inconclusive" ++ [34], none⟩) sampleBlock
    (strBytes "inconclusive") rfl

/-! ## Shutdown of a watcher -/

theorem listenerStep_invariant (shutdown : Chan) (st : ListenerState)
    (input : BlockSolve × RawRequest)
    (h : (st.pc = .waiting ∧ st.wgCount = 1 ∧ st.registered = true) ∨
      ∃ f, st.pc = .crashed f) :
    ((listenerStep shutdown st input).pc = .waiting ∧
        (listenerStep shutdown st input).wgCount = 1 ∧
        (listenerStep shutdown st input).registered = true) ∨
      ∃ f, (listenerStep shutdown st input).pc = .crashed f := by
  obtain ⟨pc, wgCount, registered, logged⟩ := st
  simp only at h
  rcases h with ⟨hw, hwg, hr⟩ | ⟨f, hf⟩
  · subst hw
    unfold listenerStep
    cases submitBlock input.2 input.1 with
    | error f => exact Or.inr ⟨f, rfl⟩
    | ok line => exact Or.inl ⟨rfl, hwg, hr⟩
  · subst hf
    exact Or.inr ⟨f, rfl⟩

theorem listener_invariant (cw : CoinserverWatcher) (shutdown : Chan)
    (inputs : List (BlockSolve × RawRequest)) :
    ((RunBlockCastListener cw shutdown inputs).pc = .waiting ∧
        (RunBlockCastListener cw shutdown inputs).wgCount = 1 ∧
        (RunBlockCastListener cw shutdown inputs).registered = true) ∨
      ∃ f, (RunBlockCastListener cw shutdown inputs).pc = .crashed f := by
  unfold RunBlockCastListener
  induction inputs using List.reverseRecOn with
  | nil =>
    simp only [List.foldl_nil]
    unfold listenerStart
    cases checkSliceTo cw.id 8 with
    | error f => exact Or.inr ⟨f, rfl⟩
    | ok u =>
      cases checkSliceFrom cw.endpoint 7 with
      | error f => exact Or.inr ⟨f, rfl⟩
      | ok v => exact Or.inl ⟨rfl, rfl, rfl⟩
  | append_singleton init input ih =>
    rw [List.foldl_append, List.foldl_cons, List.foldl_nil]
    exact listenerStep_invariant shutdown _ input ih

/-- C10: with the shutdown channel closed, and whatever blocks arrive, the
goroutine `RunBlockCastListener` never returns: it is either still waiting on
its channel, registered on the broadcaster and counted in the wait group, or
it has crashed in a panic. Unless it has crashed, its `wg.Add(1)` is never
matched by a `Done`, so the wait group is not released and `Stop` on the
started watcher blocks after closing the channel. The listener of the sample
watcher is waiting, registered and counted, and `Stop` on the sample watcher
blocks, whatever the other goroutine has done. -/
theorem listener_ignores_shutdown :
    (∀ (cw : CoinserverWatcher) (inputs : List (BlockSolve × RawRequest)),
      (RunBlockCastListener cw .closed inputs).pc ≠ .returned ∧
      (((RunBlockCastListener cw .closed inputs).pc = .waiting ∧
          (RunBlockCastListener cw .closed inputs).wgCount = 1 ∧
          (RunBlockCastListener cw .closed inputs).registered = true) ∨
        ∃ f, (RunBlockCastListener cw .closed inputs).pc = .crashed f)) ∧
    (∀ (cw : CoinserverWatcher) (inputs : List (BlockSolve × RawRequest))
        (b : BroadcasterState),
      (∃ f, (RunBlockCastListener cw .closed inputs).pc = .crashed f) ∨
      CoinserverWatcher.Stop (waitGroupReleased b (RunBlockCastListener cw .closed inputs))
          { cw with shutdown := .opened } =
        .blocked { cw with shutdown := .closed }) ∧
    RunBlockCastListener sampleWatcher .closed [] = ⟨.waiting, 1, true, []⟩ ∧
    (∀ b : BroadcasterState,
      CoinserverWatcher.Stop (waitGroupReleased b (RunBlockCastListener sampleWatcher .closed []))
          sampleWatcher =
        .blocked { sampleWatcher with shutdown := .closed }) := by
  have hsample : RunBlockCastListener sampleWatcher .closed [] = ⟨.waiting, 1, true, []⟩ := by
    decide
  refine ⟨?_, ?_, hsample, ?_⟩
  · intro cw inputs
    have hpc := listener_invariant cw .closed inputs
    refine ⟨?_, hpc⟩
    rcases hpc with ⟨hw, _⟩ | ⟨f, hf⟩
    · rw [hw]; simp
    · rw [hf]; simp
  · intro cw inputs b
    rcases listener_invariant cw .closed inputs with ⟨_, hwg, _⟩ | hcrash
    · right
      simp [waitGroupReleased, hwg, CoinserverWatcher.Stop]
    · left
      exact hcrash
  · intro b
    rw [hsample]
    simp [waitGroupReleased, CoinserverWatcher.Stop, sampleWatcher]

/-! ## The width of the hash columns -/

theorem natBytesAux_length_le (k : Nat) :
    ∀ (fuel n : Nat) (acc : Bytes), n < 256 ^ k →
      (natBytesAux fuel n acc).length ≤ acc.length + k := by
  induction k with
  | zero =>
    intro fuel n acc h
    have hn : n = 0 := by simpa using h
    subst hn
    cases fuel <;> simp [natBytesAux]
  | succ k ih =>
    intro fuel n acc h
    cases fuel with
    | zero => simp [natBytesAux]
    | succ fuel =>
      by_cases hn : n = 0
      · simp [natBytesAux, hn]
      · have hdiv : n / 256 < 256 ^ k := by
          rw [Nat.div_lt_iff_lt_mul (by norm_num)]
          rw [pow_succ] at h
          exact h
        have := ih fuel (n / 256) (n % 256 :: acc) hdiv
        simp only [natBytesAux, hn, if_false]
        simp only [List.length_cons] at this
        omega

theorem hexEncodeToString_length (bs : Bytes) :
    (hexEncodeToString bs).length = 2 * bs.length := by
  unfold hexEncodeToString
  rw [String.length_mk]
  induction bs with
  | nil => rfl
  | cons b rest ih =>
    simp only [List.flatMap_cons, List.length_append, List.length_cons, List.length_nil, ih]
    omega

set_option maxRecDepth 8192 in
/-- C11: the `hash` and `powhash` columns are not full-width. The text written
is two hex digits for each byte of `big.Int.Bytes`, which has no leading zero
byte, so every value below 2^248 (every 32-byte hash whose first byte is zero)
is written with at most 62 characters. On the sample block, whose proof-of-work
hash is 0x1234, with a hasher whose digest starts with a zero byte, the block
row handed to `Exec` has `powhash` equal to `1234` (4 characters) and a `hash`
of 62 characters. -/
theorem hash_columns_drop_leading_zero_bytes :
    (∀ x : Nat, (hexEncodeToString (bigBytes (Int.ofNat (x % 2 ^ 248)))).length ≤ 62) ∧
    recordBlock leadingZeroDigest workingDb "test" [("BTC", NewBroadcaster 10)]
        sampleShare [] ("BTC", sampleBlock) =
      .ok [.submit "BTC" sampleBlock,
           .exec (.block
            { height := 100, currency := "BTC",
              hash := "ffffffffffffffffffffffffffffffffffffffffffffffffffffffffffffff",
              powhash := "1234",
              subsidy := 5000000000, mined_at := 1500000000, mined_by := "alice",
              difficulty := "7", chain := "test" })] ∧
    ("ffffffffffffffffffffffffffffffffffffffffffffffffffffffffffffff" : String).length = 62 ∧
    ("1234" : String).length = 4 := by
  refine ⟨?_, rfl, by decide, by decide⟩
  intro x
  rw [hexEncodeToString_length]
  have hlt : x % 2 ^ 248 < 256 ^ 31 := by
    have : (256 : Nat) ^ 31 = 2 ^ 248 := by norm_num
    rw [this]
    exact Nat.mod_lt _ (by positivity)
  have := natBytesAux_length_le 31 (x % 2 ^ 248) (x % 2 ^ 248) [] hlt
  have hb : bigBytes (Int.ofNat (x % 2 ^ 248)) =
      natBytesAux (x % 2 ^ 248) (x % 2 ^ 248) [] := rfl
  rw [hb]
  simp only [List.length_nil] at this
  omega

end NgPool
